import Mathlib

/-!
Formal model of the BookFinder application (src/App.jsx): the Open Library
search controller with its query building, client-side filtering, facet
derivation, sorting, pagination merging, error handling, favorites toggling,
and the details-modal projection.  Each JavaScript function is translated
into an executable Lean definition; JS numbers that hold integer data are
modelled as Int/Nat, optional JSON fields as Option, arrays as List, and the
asynchronous fetch completion as an explicit outcome value fed to the
continuation of `doSearch`'s inner `exec`.
-/

namespace BookFinder

/-- One search result item (`doc`), with the fields requested by
`buildQuery`'s field list (App.jsx 243-260) and consumed by the controller.
Optional JSON fields are `Option`; array fields use `[]` for an absent
array, matching the pervasive `(d.f || [])` accesses in the source.
The float field `ratings_average` is requested but never used by any logic
modelled here, so it is omitted. -/
structure Doc where
  key : String
  title : Option String
  subtitle : Option String
  author_name : List String
  first_publish_year : Option Int
  publish_year : List Int
  publisher : List String
  edition_count : Option Int
  cover_i : Option Int
  language : List String
  ebook_count_i : Option Int
  subject : List String
  deriving Repr, DecidableEq

/-- JS `x || dflt` on an optional numeric field: both `undefined` and `0` are
falsy, so `some 0` also yields the default. -/
def jsOr (x : Option Int) (dflt : Int) : Int :=
  match x with
  | none => dflt
  | some v => if v = 0 then dflt else v

/-- Drop leading JS whitespace, as `parseInt` does before parsing. -/
def skipWs : List Char → List Char
  | [] => []
  | c :: cs => if c = ' ' ∨ c = '\t' ∨ c = '\n' ∨ c = '\r' then skipWs cs else c :: cs

/-- Longest leading run of decimal digits. -/
def takeDigits : List Char → List Char
  | [] => []
  | c :: cs => if c.isDigit then c :: takeDigits cs else []

/-- Numeric value of a digit string. -/
def digitsToNat (cs : List Char) : Nat :=
  cs.foldl (fun n c => 10 * n + (c.toNat - 48)) 0

/-- JS `parseInt(s, 10)` as used on the year fields (App.jsx 339-340):
skip leading whitespace, optional sign, then the longest digit run; `none`
models `NaN` (no digits at all, e.g. the empty year inputs). -/
def parseIntJS (s : String) : Option Int :=
  match skipWs s.data with
  | '-' :: rest =>
      let ds := takeDigits rest
      if ds = [] then none else some (-(digitsToNat ds : Int))
  | '+' :: rest =>
      let ds := takeDigits rest
      if ds = [] then none else some ((digitsToNat ds : Int))
  | cs =>
      let ds := takeDigits cs
      if ds = [] then none else some ((digitsToNat ds : Int))

/-- The query parameters of the outbound Open Library request produced by
`buildQuery` (App.jsx 233-262); `none` means the parameter is not set. -/
structure Request where
  q : Option String
  rtitle : Option String
  rauthor : Option String
  risbn : Option String
  rsubject : Option String
  page : Option Nat
  limit : Option Nat
  deriving Repr, DecidableEq

/-- `buildQuery` (App.jsx 233-262): exactly one primary field chosen by
`mode` (set only when its text is truthy, i.e. non-empty), optional
`subject`, `page` and `limit` set when truthy (non-zero).  The constant
`fields` selection list carries no logic and is omitted from the model. -/
def buildQuery (mode query author title isbn subject : String) (page perPage : Nat) :
    Request :=
  { q := if mode == "all" && query != "" then some query else none
    rtitle := if mode == "title" && title != "" then some title else none
    rauthor := if mode == "author" && author != "" then some author else none
    risbn := if mode == "isbn" && isbn != "" then some isbn else none
    rsubject := if subject != "" then some subject else none
    page := if page ≠ 0 then some page else none
    limit := if perPage ≠ 0 then some perPage else none }

/-- The client-side post-filters of `exec` (App.jsx 333-342), applied in
source order: ebook availability, language membership, year lower bound,
year upper bound.  A missing `first_publish_year` (and a zero one, by JS
falsiness) defaults to `0` for the lower bound and to `99999` for the
upper bound; an unparsable year input (`parseInt` returning `NaN`) skips
that bound entirely. -/
def applyFilters (ebookOnly : Bool) (langFilter : String) (yearMin yearMax : String)
    (docs : List Doc) : List Doc :=
  let f1 := if ebookOnly then docs.filter (fun d => decide (0 < jsOr d.ebook_count_i 0)) else docs
  let f2 := if langFilter != "any" then f1.filter (fun d => d.language.contains langFilter) else f1
  let f3 := match parseIntJS yearMin with
            | some yMin => f2.filter (fun d => decide (yMin ≤ jsOr d.first_publish_year 0))
            | none => f2
  match parseIntJS yearMax with
  | some yMax => f3.filter (fun d => decide (jsOr d.first_publish_year 99999 ≤ yMax))
  | none => f3

/-- Append `x` to `l` unless already present: one insertion step of a JS
`Set`, whose iteration order is insertion order. -/
def insertUnique (l : List String) (x : String) : List String :=
  if x ∈ l then l else l ++ [x]

/-- The facet-derivation scan of `exec` (App.jsx 346-353): walk the merged
result list and collect the strings produced by `get` into an
insertion-ordered set.  The source fills the three sets (languages,
subjects, publishers) in a single `forEach`; since the sets are independent
this is the same as three separate scans, one per `get`. -/
def facetScan (get : Doc → List String) (docs : List Doc) : List String :=
  docs.foldl (fun acc d => (get d).foldl insertUnique acc) []

/-- JS code-unit comparison of two character lists: lexicographic on the
character codes, the order JS `<`/`>` uses on strings. -/
def charListLe : List Char → List Char → Bool
  | [], _ => true
  | _ :: _, [] => false
  | a :: as, b :: bs =>
      if a.toNat < b.toNat then true
      else if b.toNat < a.toNat then false
      else charListLe as bs

/-- JS string order `a <= b` (negation of `a > b`), as produced by the
generic sort comparator of `exec` on string keys. -/
def jsLe (s t : String) : Bool := charListLe s.data t.data

/-- JS `String.prototype.toLowerCase` restricted to the character-level
lowercasing shared with Lean's `Char.toLower`. -/
def jsToLower (s : String) : String := String.mk (s.data.map Char.toLower)

/-- Sort key `keyFns.title` (App.jsx 361): `(d.title || "").toLowerCase()`. -/
def titleKey (d : Doc) : String := jsToLower (d.title.getD "")

/-- Sort key `keyFns.author` (App.jsx 362): first author name, lowercased,
empty when the author list is absent or empty. -/
def authorKey (d : Doc) : String := jsToLower (d.author_name.head?.getD "")

/-- Sort key `keyFns.year` (App.jsx 363): `d.first_publish_year || 0`. -/
def yearKey (d : Doc) : Int := jsOr d.first_publish_year 0

/-- `Math.max` over a non-empty list (the source guards on `length`). -/
def maxList : List Int → Int
  | [] => 0
  | x :: xs => xs.foldl max x

/-- Sort key `keyFns.latest` (App.jsx 364): the maximum entry of
`publish_year` when that list is non-empty, else `first_publish_year || 0`. -/
def latestKey (d : Doc) : Int :=
  if d.publish_year.isEmpty then jsOr d.first_publish_year 0 else maxList d.publish_year

/-- Stable ordered insertion: place `a` before the first element it is
`le`-below-or-equal to. -/
def insertLe {α : Type} (le : α → α → Bool) (a : α) : List α → List α
  | [] => [a]
  | b :: l => if le a b then a :: b :: l else b :: insertLe le a l

/-- Stable sort by the boolean relation `le`.  This models
`Array.prototype.sort` with a consistent comparator `c` (stability is
mandated by the JS specification), taking `le a b` to mean `c a b <= 0`:
any stable sort produces the same output, so insertion sort is a faithful
executable model. -/
def sortLe {α : Type} (le : α → α → Bool) : List α → List α
  | [] => []
  | a :: l => insertLe le a (sortLe le l)

/-- The sort step of `exec` (App.jsx 358-369).  For `"year"`/`"latest"` the
comparator is `keyFn(b) - keyFn(a)` (descending numeric order, so `a` may
precede `b` iff `key b ≤ key a`); otherwise the generic comparator
compares the selected key with `>`/`<` (ascending), where the `"title"`
and `"author"` keys are lowercased strings and every other `sortBy` value
falls back to `keyFns.relevance`, the constant-0 key, whose comparator
always returns 0. -/
def sortDocs (sortBy : String) (l : List Doc) : List Doc :=
  if sortBy == "year" || sortBy == "latest" then
    let key := if sortBy == "year" then yearKey else latestKey
    sortLe (fun a b => decide (key b ≤ key a)) l
  else if sortBy == "title" then
    sortLe (fun a b => jsLe (titleKey a) (titleKey b)) l
  else if sortBy == "author" then
    sortLe (fun a b => jsLe (authorKey a) (authorKey b)) l
  else
    sortLe (fun _ _ => true) l

/-- The controller state of `BookFinderApp` (App.jsx 264-293): the search
parameters and the published fetch results.  View-only state (`view`,
`selectedDoc`, favorites) is independent of the fetch cycle and modelled
separately. -/
structure AppState where
  mode : String
  query : String
  title : String
  author : String
  isbn : String
  subject : String
  langFilter : String
  ebookOnly : Bool
  yearMin : String
  yearMax : String
  sortBy : String
  page : Nat
  perPage : Nat
  loading : Bool
  error : String
  results : List Doc
  numFound : Int
  availableLangs : List String
  availableSubjects : List String
  availablePublishers : List String
  deriving Repr, DecidableEq

/-- The initial controller state (the `useState` initialisers,
App.jsx 265-291). -/
def initialState : AppState :=
  { mode := "all", query := "", title := "", author := "", isbn := "", subject := ""
    langFilter := "any", ebookOnly := false, yearMin := "", yearMax := ""
    sortBy := "relevance", page := 1, perPage := 20
    loading := false, error := "", results := [], numFound := 0
    availableLangs := [], availableSubjects := [], availablePublishers := [] }

/-- How the awaited fetch of `exec` resolves: a parsed JSON success (its
`docs` array, `[]` when missing or not an array, and its optional numeric
`numFound`), a non-ok HTTP status (the source throws `HTTP <status>`), a
transport failure with the thrown error message, or an abort caused by a
superseding request. -/
inductive FetchOutcome where
  | ok (docs : List Doc) (numFound : Option Int)
  | httpError (status : Nat)
  | transportError (msg : String)
  | aborted
  deriving Repr, DecidableEq

/-- The `exec` closure inside `doSearch` (App.jsx 311-377), given the state
of the render that created it and the outcome of its fetch.  It first
clears the error and raises the loading flag (312-313), then on success
filters the page, merges it (append or replace), derives the facet sets
from the merged list, sorts, and publishes results and count (331-372); a
non-abort failure only records the error message (374); the `finally`
clause always clears the loading flag (376). -/
def exec (s : AppState) (append : Bool) (outcome : FetchOutcome) : AppState :=
  let s1 : AppState := { s with error := "", loading := true }
  match outcome with
  | .ok docs numFound =>
      let filtered := applyFilters s1.ebookOnly s1.langFilter s1.yearMin s1.yearMax docs
      let combined := if append then s1.results ++ filtered else filtered
      let sorted := sortDocs s1.sortBy combined
      { s1 with
        availableLangs := (facetScan (fun d => d.language) combined).take 20
        availableSubjects := (facetScan (fun d => d.subject.take 10) combined).take 50
        availablePublishers := (facetScan (fun d => d.publisher.take 3) combined).take 30
        results := sorted
        numFound := numFound.getD (sorted.length : Int)
        loading := false }
  | .httpError status =>
      { s1 with error := "HTTP " ++ toString status, loading := false }
  | .transportError msg =>
      { s1 with error := if msg == "" then "Something went wrong" else msg, loading := false }
  | .aborted =>
      { s1 with loading := false }

/-- What a superseded (aborted) request executes after its fetch rejects
with `AbortError` (App.jsx 373-377): the `catch` arm is skipped because
`e.name === "AbortError"`, so no error is recorded, but the `finally`
clause still runs `setLoading(false)`.  The argument is the controller
state at that moment — by then the superseding request has already run its
own prologue, so `loading` is `true`. -/
def abortContinuation (s : AppState) : AppState := { s with loading := false }

/-- `loadMore` (App.jsx 404-412): bail out while loading, otherwise set the
page state to `p + 1` and schedule `doSearch({append: true, immediate:
true})` through `setTimeout`.  The scheduled call invokes the `doSearch`
closure of the render in which `loadMore` was created, and that closure's
`exec` reads the `page` constant of the same render — the value before the
increment — so the outbound request is built with the old page number.
The result pairs the new state with the request issued (none when the
guard bails out). -/
def loadMore (s : AppState) : AppState × Option Request :=
  if s.loading then (s, none)
  else ({ s with page := s.page + 1 },
        some (buildQuery s.mode s.query s.author s.title s.isbn s.subject
                s.page s.perPage))

/-- The parameter-change effect (App.jsx 387-391): when any non-pagination
search parameter changes, the effect of that render runs `setPage(1)` and
schedules a debounced `doSearch({append: false})`.  The debounced `exec`
is the closure of the same render, so it reads that render's `page`
constant — the pre-reset value — while the page state itself becomes 1
(the effect does not re-run on page changes, as `page` is not among its
dependencies).  The result pairs the new state with the request the
debounced fetch will issue. -/
def paramChangeEffect (s : AppState) : AppState × Request :=
  ({ s with page := 1 },
   buildQuery s.mode s.query s.author s.title s.isbn s.subject s.page s.perPage)

/-- `isFav` (App.jsx 399): membership of a record in the favorites list,
compared by `key`. -/
def isFav (doc : Doc) (favorites : List Doc) : Bool :=
  favorites.any fun f => f.key == doc.key

/-- `toggleFav` (App.jsx 400-402): remove every entry sharing the record's
key when it is currently a favorite, else prepend the record. -/
def toggleFav (doc : Doc) (prev : List Doc) : List Doc :=
  if isFav doc prev then prev.filter (fun f => f.key != doc.key) else doc :: prev

/-- The publish-year list computed by `DetailsModal` (App.jsx 171):
`(doc.publish_year || []).sort((a, b) => b - a)` — descending numeric
sort, no deduplication. -/
def detailsPublishYears (d : Doc) : List Int :=
  sortLe (fun a b => decide (b ≤ a)) d.publish_year

/-- The record after `DetailsModal` has computed its publish-year list:
JS `Array.prototype.sort` sorts in place, so the record's own
`publish_year` array now holds the descending-sorted contents. -/
def detailsRecordAfter (d : Doc) : Doc :=
  { d with publish_year := detailsPublishYears d }

/-- A record with every optional field absent, used as the base of the
concrete sample records below. -/
def emptyDoc : Doc :=
  { key := "", title := none, subtitle := none, author_name := []
    first_publish_year := none, publish_year := [], publisher := []
    edition_count := none, cover_i := none, language := []
    ebook_count_i := none, subject := [] }

/-- Sample record whose lowercased title sorts first. -/
def docA : Doc :=
  { emptyDoc with key := "/works/OL1W", title := some "Alpha"
                  language := ["eng"], subject := ["Fiction"], publisher := ["Acme"] }

/-- Sample record whose lowercased title sorts second. -/
def docB : Doc :=
  { emptyDoc with key := "/works/OL2W", title := some "Beta" }

/- ------------------------------------------------------------------ -/
/- Generic lemmas about the executable building blocks.               -/
/- ------------------------------------------------------------------ -/

theorem insertLe_perm {α : Type} (le : α → α → Bool) (a : α) (l : List α) :
    (insertLe le a l).Perm (a :: l) := by
  induction l with
  | nil => simp [insertLe]
  | cons b l ih =>
    simp only [insertLe]
    by_cases h : le a b = true
    · rw [if_pos h]
    · rw [if_neg h]
      exact (ih.cons b).trans (List.Perm.swap a b l)

theorem sortLe_perm {α : Type} (le : α → α → Bool) (l : List α) :
    (sortLe le l).Perm l := by
  induction l with
  | nil => simp [sortLe]
  | cons a l ih => exact (insertLe_perm le a (sortLe le l)).trans (ih.cons a)

theorem mem_insertLe {α : Type} (le : α → α → Bool) (a x : α) (l : List α) :
    x ∈ insertLe le a l ↔ x = a ∨ x ∈ l := by
  rw [(insertLe_perm le a l).mem_iff]
  simp

theorem insertLe_pairwise {α : Type} (le : α → α → Bool)
    (total : ∀ a b, le a b = true ∨ le b a = true)
    (trns : ∀ a b c, le a b = true → le b c = true → le a c = true)
    (a : α) (l : List α) (h : l.Pairwise (fun x y => le x y = true)) :
    (insertLe le a l).Pairwise (fun x y => le x y = true) := by
  induction l with
  | nil => simp [insertLe]
  | cons b l ih =>
    rw [List.pairwise_cons] at h
    obtain ⟨hb, hl⟩ := h
    simp only [insertLe]
    by_cases hab : le a b = true
    · rw [if_pos hab, List.pairwise_cons]
      refine ⟨?_, List.pairwise_cons.mpr ⟨hb, hl⟩⟩
      intro x hx
      rw [List.mem_cons] at hx
      rcases hx with rfl | hx
      · exact hab
      · exact trns a b x hab (hb x hx)
    · rw [if_neg hab, List.pairwise_cons]
      refine ⟨?_, ih hl⟩
      intro x hx
      rw [mem_insertLe] at hx
      rcases hx with hxa | hx
      · rcases total a b with h1 | h1
        · exact absurd h1 hab
        · rw [hxa]; exact h1
      · exact hb x hx

theorem sortLe_pairwise {α : Type} (le : α → α → Bool)
    (total : ∀ a b, le a b = true ∨ le b a = true)
    (trns : ∀ a b c, le a b = true → le b c = true → le a c = true)
    (l : List α) :
    (sortLe le l).Pairwise (fun x y => le x y = true) := by
  induction l with
  | nil => simp [sortLe]
  | cons a l ih => exact insertLe_pairwise le total trns a (sortLe le l) ih

theorem sortLe_of_true {α : Type} (le : α → α → Bool)
    (h : ∀ a b, le a b = true) (l : List α) : sortLe le l = l := by
  induction l with
  | nil => rfl
  | cons a l ih =>
    simp only [sortLe, ih]
    cases l with
    | nil => rfl
    | cons b l => simp [insertLe, h a b]

theorem charListLe_total : ∀ as bs : List Char,
    charListLe as bs = true ∨ charListLe bs as = true := by
  intro as
  induction as with
  | nil => intro bs; left; cases bs <;> simp [charListLe]
  | cons a as ih =>
    intro bs
    cases bs with
    | nil => right; simp [charListLe]
    | cons b bs =>
      simp only [charListLe]
      rcases Nat.lt_trichotomy a.toNat b.toNat with h | h | h
      · left; rw [if_pos h]
      · have h1 : ¬ a.toNat < b.toNat := by omega
        have h2 : ¬ b.toNat < a.toNat := by omega
        rw [if_neg h1, if_neg h2, if_neg h2, if_neg h1]
        exact ih bs
      · right; rw [if_pos h]

theorem charListLe_trans : ∀ as bs cs : List Char,
    charListLe as bs = true → charListLe bs cs = true → charListLe as cs = true := by
  intro as
  induction as with
  | nil => intro bs cs _ _; cases cs <;> simp [charListLe]
  | cons a as ih =>
    intro bs cs h1 h2
    cases bs with
    | nil => simp [charListLe] at h1
    | cons b bs =>
      cases cs with
      | nil => simp [charListLe] at h2
      | cons c cs =>
        simp only [charListLe] at h1 h2 ⊢
        rcases Nat.lt_trichotomy a.toNat c.toNat with hac | hac | hac
        · rw [if_pos hac]
        · have n1 : ¬ a.toNat < c.toNat := by omega
          have n2 : ¬ c.toNat < a.toNat := by omega
          rw [if_neg n1, if_neg n2]
          by_cases hab : a.toNat < b.toNat
          · by_cases hbc : b.toNat < c.toNat
            · omega
            · have hcb : c.toNat < b.toNat := by omega
              rw [if_neg hbc, if_pos hcb] at h2
              exact absurd h2 (by simp)
          · by_cases hba : b.toNat < a.toNat
            · rw [if_neg hab, if_pos hba] at h1
              exact absurd h1 (by simp)
            · have hbc1 : ¬ b.toNat < c.toNat := by omega
              have hbc2 : ¬ c.toNat < b.toNat := by omega
              rw [if_neg hab, if_neg hba] at h1
              rw [if_neg hbc1, if_neg hbc2] at h2
              exact ih bs cs h1 h2
        · exfalso
          by_cases hab : a.toNat < b.toNat
          · by_cases hbc : b.toNat < c.toNat
            · omega
            · by_cases hcb : c.toNat < b.toNat
              · rw [if_neg hbc, if_pos hcb] at h2; simp at h2
              · omega
          · by_cases hba : b.toNat < a.toNat
            · rw [if_neg hab, if_pos hba] at h1; simp at h1
            · by_cases hbc : b.toNat < c.toNat
              · omega
              · by_cases hcb : c.toNat < b.toNat
                · rw [if_neg hbc, if_pos hcb] at h2; simp at h2
                · omega

theorem jsLe_total (s t : String) : jsLe s t = true ∨ jsLe t s = true :=
  charListLe_total s.data t.data

theorem jsLe_trans (s t u : String) :
    jsLe s t = true → jsLe t u = true → jsLe s u = true :=
  charListLe_trans s.data t.data u.data

theorem mem_foldl_insertUnique (v : String) :
    ∀ (xs : List String) (acc : List String),
      v ∈ xs.foldl insertUnique acc → v ∈ acc ∨ v ∈ xs := by
  intro xs
  induction xs with
  | nil => intro acc h; exact Or.inl h
  | cons x xs ih =>
    intro acc h
    rw [List.foldl_cons] at h
    rcases ih (insertUnique acc x) h with h1 | h1
    · unfold insertUnique at h1
      by_cases hx : x ∈ acc
      · rw [if_pos hx] at h1; exact Or.inl h1
      · rw [if_neg hx] at h1
        rcases List.mem_append.mp h1 with h2 | h2
        · exact Or.inl h2
        · simp only [List.mem_singleton] at h2
          subst h2
          exact Or.inr (List.mem_cons_self _ _)
    · exact Or.inr (List.mem_cons_of_mem x h1)

theorem mem_facetScan (get : Doc → List String) (v : String) :
    ∀ docs : List Doc, v ∈ facetScan get docs → ∃ d, d ∈ docs ∧ v ∈ get d := by
  have aux : ∀ (docs : List Doc) (acc : List String),
      v ∈ docs.foldl (fun acc d => (get d).foldl insertUnique acc) acc →
      v ∈ acc ∨ ∃ d, d ∈ docs ∧ v ∈ get d := by
    intro docs
    induction docs with
    | nil => intro acc h; exact Or.inl h
    | cons d docs ih =>
      intro acc h
      rw [List.foldl_cons] at h
      rcases ih _ h with h1 | h1
      · rcases mem_foldl_insertUnique v (get d) acc h1 with h2 | h2
        · exact Or.inl h2
        · exact Or.inr ⟨d, List.mem_cons_self d docs, h2⟩
      · obtain ⟨e, he, hv⟩ := h1
        exact Or.inr ⟨e, List.mem_cons_of_mem d he, hv⟩
  intro docs h
  rcases aux docs [] h with h1 | h1
  · exact absurd h1 (List.not_mem_nil v)
  · exact h1

theorem mem_sortDocs (sb : String) (l : List Doc) (x : Doc) :
    x ∈ sortDocs sb l ↔ x ∈ l := by
  unfold sortDocs
  by_cases h1 : (sb == "year" || sb == "latest") = true
  · rw [if_pos h1]
    exact (sortLe_perm _ l).mem_iff
  · rw [if_neg h1]
    by_cases h2 : (sb == "title") = true
    · rw [if_pos h2]
      exact (sortLe_perm _ l).mem_iff
    · rw [if_neg h2]
      by_cases h3 : (sb == "author") = true
      · rw [if_pos h3]
        exact (sortLe_perm _ l).mem_iff
      · rw [if_neg h3]
        exact (sortLe_perm _ l).mem_iff

/- ------------------------------------------------------------------ -/
/- Claim theorems.                                                    -/
/- ------------------------------------------------------------------ -/

/-- State while a superseding request B is in flight: B's prologue has
cleared the error and raised the loading flag, and the previously
published results are still current. -/
def inFlightState : AppState :=
  { initialState with loading := true, results := [docA], numFound := 42 }

/-- C1: the claim says a request cancelled by a superseding one mutates no
controller state (results, total count, error, loading flag).  The
cancelled request indeed never publishes its data or an error — its
results, count and error are untouched — but its `finally` clause still
clears the loading flag, so at `inFlightState` (the superseding request is
in flight, `loading = true`) the cancelled request's continuation does
change the controller state. -/
theorem cancelled_request_clears_loading :
    (abortContinuation inFlightState).results = inFlightState.results ∧
    (abortContinuation inFlightState).numFound = inFlightState.numFound ∧
    (abortContinuation inFlightState).error = inFlightState.error ∧
    (abortContinuation inFlightState).loading = false ∧
    inFlightState.loading = true ∧
    abortContinuation inFlightState ≠ inFlightState := by
  refine ⟨rfl, rfl, rfl, rfl, rfl, ?_⟩
  decide

/-- State satisfying `loadMore`'s preconditions: not loading, and one
accumulated record against a reported total of 100. -/
def loadMoreState : AppState :=
  { initialState with query := "dune", results := [docA], numFound := 100 }

/-- C2: the claim says the fetch issued by `loadMore` uses the incremented
page number.  At `loadMoreState` (preconditions hold: not loading, 1 < 100)
`loadMore` sets the page state to 2, but the request issued by its
scheduled fetch carries page 1 — the pre-increment value captured by the
render's `doSearch` closure — not page 2. -/
theorem loadMore_requests_stale_page :
    loadMoreState.loading = false ∧
    ((loadMoreState.results.length : Int) < loadMoreState.numFound) ∧
    (loadMore loadMoreState).1.page = 2 ∧
    (loadMore loadMoreState).2.map Request.page = some (some 1) ∧
    (loadMore loadMoreState).2.map Request.page ≠ some (some 2) := by
  decide

/-- State on page 3 whose sort key has just been changed (a non-pagination
parameter change). -/
def pageThreeState : AppState :=
  { initialState with sortBy := "title", page := 3, results := [docA, docB] }

/-- C3: the claim says a non-pagination parameter change resets the page to
1 and fetches with page 1.  The effect does reset the page state to 1 (and
its fetch replaces rather than appends), but the debounced `exec` closure
captured by the same render still reads the pre-reset page, so at
`pageThreeState` the outbound request carries page 3, not page 1. -/
theorem param_change_requests_stale_page :
    (paramChangeEffect pageThreeState).1.page = 1 ∧
    (paramChangeEffect pageThreeState).2.page = some 3 ∧
    (paramChangeEffect pageThreeState).2.page ≠ some 1 := by
  decide

/-- C4 (amended): a successful fetch triggered by `loadMore` concatenates
the filtered new page after the existing records and re-sorts the
concatenation by the active sort key; when that key is `"relevance"` the
sort is the identity, so the previous records remain an unchanged head
prefix of the new ResultSet with the newly fetched filtered records
appended after them. -/
theorem loadMore_append_relevance (s : AppState) (docs : List Doc) (nf : Option Int)
    (hrel : s.sortBy = "relevance") :
    (exec s true (.ok docs nf)).results
      = s.results ++ applyFilters s.ebookOnly s.langFilter s.yearMin s.yearMax docs := by
  show sortDocs s.sortBy
      (s.results ++ applyFilters s.ebookOnly s.langFilter s.yearMin s.yearMax docs)
      = s.results ++ applyFilters s.ebookOnly s.langFilter s.yearMin s.yearMax docs
  rw [hrel]
  exact sortLe_of_true _ (fun _ _ => rfl) _

/-- Appending state with the default relevance sort key. -/
def relevanceAppendState : AppState := { initialState with results := [docB] }

theorem loadMore_append_relevance_witness :
    relevanceAppendState.sortBy = "relevance" ∧
    (exec relevanceAppendState true (.ok [docA] none)).results
      = relevanceAppendState.results ++
        applyFilters relevanceAppendState.ebookOnly relevanceAppendState.langFilter
          relevanceAppendState.yearMin relevanceAppendState.yearMax [docA] :=
  ⟨rfl, loadMore_append_relevance relevanceAppendState [docA] none rfl⟩

/-- Appending state sorted by title. -/
def titleAppendState : AppState := { initialState with sortBy := "title", results := [docB] }

/-- C4 counterexample: with sort key `"title"`, after a `loadMore` fetch
returning docA (title "Alpha") the merged list is re-sorted and docA ends
up before the pre-existing docB (title "Beta"), so the previous records
are not an unchanged head prefix with the new records appended after
them. -/
theorem loadMore_head_unchanged_cex :
    (exec titleAppendState true (.ok [docA] (some 2))).results
      ≠ titleAppendState.results ++
        applyFilters titleAppendState.ebookOnly titleAppendState.langFilter
          titleAppendState.yearMin titleAppendState.yearMax [docA] := by
  decide

/-- C5: a fetch failing with a non-ok HTTP status or a transport error (not
a cancellation) surfaces a non-empty human-readable error message — `HTTP
<status>` or the thrown message, with a fixed fallback when that is empty —
and leaves the published results, total count and facet lists completely
unchanged, clearing the loading flag so a retry is possible. -/
theorem fetch_error_preserves_results (s : AppState) (append : Bool)
    (status : Nat) (msg : String) :
    ((exec s append (.httpError status)).results = s.results ∧
     (exec s append (.httpError status)).numFound = s.numFound ∧
     (exec s append (.httpError status)).availableLangs = s.availableLangs ∧
     (exec s append (.httpError status)).availableSubjects = s.availableSubjects ∧
     (exec s append (.httpError status)).availablePublishers = s.availablePublishers ∧
     (exec s append (.httpError status)).error = "HTTP " ++ toString status ∧
     (exec s append (.httpError status)).error ≠ "" ∧
     (exec s append (.httpError status)).loading = false) ∧
    ((exec s append (.transportError msg)).results = s.results ∧
     (exec s append (.transportError msg)).numFound = s.numFound ∧
     (exec s append (.transportError msg)).availableLangs = s.availableLangs ∧
     (exec s append (.transportError msg)).availableSubjects = s.availableSubjects ∧
     (exec s append (.transportError msg)).availablePublishers = s.availablePublishers ∧
     (exec s append (.transportError msg)).error ≠ "" ∧
     (exec s append (.transportError msg)).loading = false) := by
  refine ⟨⟨rfl, rfl, rfl, rfl, rfl, rfl, ?_, rfl⟩, ⟨rfl, rfl, rfl, rfl, rfl, ?_, rfl⟩⟩
  · show ("HTTP " ++ toString status) ≠ ""
    intro h
    have h2 := congrArg String.length h
    rw [String.length_append] at h2
    have h3 : "HTTP ".length = 5 := by decide
    have h4 : "".length = 0 := by decide
    rw [h3, h4] at h2
    omega
  · show (if msg == "" then "Something went wrong" else msg) ≠ ""
    by_cases hm : (msg == "") = true
    · rw [if_pos hm]; decide
    · rw [if_neg hm]
      intro h
      exact hm (by simp [h])

/-- C6: for every list, the `"relevance"` key performs no reordering; the
text keys `"title"` and `"author"` produce a permutation ordered ascending
by the lowercased key under JS string comparison; the year keys `"year"`
and `"latest"` produce a permutation ordered descending by the numeric
key. -/
theorem sortDocs_ordering_spec (l : List Doc) :
    sortDocs "relevance" l = l ∧
    (sortDocs "title" l).Pairwise (fun a b => jsLe (titleKey a) (titleKey b) = true) ∧
    (sortDocs "title" l).Perm l ∧
    (sortDocs "author" l).Pairwise (fun a b => jsLe (authorKey a) (authorKey b) = true) ∧
    (sortDocs "author" l).Perm l ∧
    (sortDocs "year" l).Pairwise (fun a b => yearKey b ≤ yearKey a) ∧
    (sortDocs "year" l).Perm l ∧
    (sortDocs "latest" l).Pairwise (fun a b => latestKey b ≤ latestKey a) ∧
    (sortDocs "latest" l).Perm l := by
  refine ⟨?_, ?_, ?_, ?_, ?_, ?_, ?_, ?_, ?_⟩
  · exact sortLe_of_true (fun _ _ => true) (fun _ _ => rfl) l
  · exact sortLe_pairwise (fun a b => jsLe (titleKey a) (titleKey b))
      (fun a b => jsLe_total (titleKey a) (titleKey b))
      (fun a b c => jsLe_trans (titleKey a) (titleKey b) (titleKey c)) l
  · exact sortLe_perm (fun a b => jsLe (titleKey a) (titleKey b)) l
  · exact sortLe_pairwise (fun a b => jsLe (authorKey a) (authorKey b))
      (fun a b => jsLe_total (authorKey a) (authorKey b))
      (fun a b c => jsLe_trans (authorKey a) (authorKey b) (authorKey c)) l
  · exact sortLe_perm (fun a b => jsLe (authorKey a) (authorKey b)) l
  · have h := sortLe_pairwise (fun a b : Doc => decide (yearKey b ≤ yearKey a))
      (fun a b => by
        rcases le_total (yearKey b) (yearKey a) with h | h
        · left; exact decide_eq_true h
        · right; exact decide_eq_true h)
      (fun a b c h1 h2 =>
        decide_eq_true (le_trans (of_decide_eq_true h2) (of_decide_eq_true h1)))
      l
    exact h.imp (fun hx => of_decide_eq_true hx)
  · exact sortLe_perm (fun a b => decide (yearKey b ≤ yearKey a)) l
  · have h := sortLe_pairwise (fun a b : Doc => decide (latestKey b ≤ latestKey a))
      (fun a b => by
        rcases le_total (latestKey b) (latestKey a) with h | h
        · left; exact decide_eq_true h
        · right; exact decide_eq_true h)
      (fun a b c h1 h2 =>
        decide_eq_true (le_trans (of_decide_eq_true h2) (of_decide_eq_true h1)))
      l
    exact h.imp (fun hx => of_decide_eq_true hx)
  · exact sortLe_perm (fun a b => decide (latestKey b ≤ latestKey a)) l

/-- Record first published in 1995. -/
def doc1995 : Doc := { emptyDoc with key := "/works/OL95W", first_publish_year := some 1995 }

/-- Record first published in 1980. -/
def doc1980 : Doc := { emptyDoc with key := "/works/OL80W", first_publish_year := some 1980 }

/-- Record with no first-publish-year at all. -/
def docNoYear : Doc := { emptyDoc with key := "/works/OL0W" }

/-- C7 counterexample: the claim says a record with no first-publish-year is
included when only yearMax is set; with yearMax = "2000" the code
substitutes the sentinel 99999, the comparison 99999 ≤ 2000 fails, and the
record is excluded. -/
theorem year_filter_missing_upper_cex :
    docNoYear ∉ applyFilters false "any" "" "2000" [docNoYear] := by
  decide

/-- C7 (amended): the year-range post-filter keeps a 1995 record under
{yearMin = 1990, yearMax = 2000} and excludes a 1980 record under
yearMin = 1990; a record with no first-publish-year gets 0 for the lower
bound — excluded whenever yearMin parses to a positive value — and the
sentinel 99999 for the upper bound, so it is excluded (not included)
whenever yearMax parses to a value below 99999. -/
theorem year_filter_spec (ymin ymax : String) (n m : Int) (dn : Doc)
    (hmin : parseIntJS ymin = some n) (hpos : 0 < n)
    (hmax : parseIntJS ymax = some m) (hlt : m < 99999)
    (hd : dn.first_publish_year = none) :
    applyFilters false "any" "1990" "2000" [doc1995] = [doc1995] ∧
    applyFilters false "any" "1990" "" [doc1980] = [] ∧
    applyFilters false "any" ymin "" [dn] = [] ∧
    applyFilters false "any" "" ymax [dn] = [] := by
  have hempty : parseIntJS "" = none := rfl
  refine ⟨by decide, by decide, ?_, ?_⟩
  · have hn : ¬ (n ≤ (0 : Int)) := by omega
    simp [applyFilters, hmin, hempty, hd, jsOr, hn]
  · have hm : ¬ ((99999 : Int) ≤ m) := by omega
    simp [applyFilters, hmax, hempty, hd, jsOr, hm]

theorem year_filter_spec_witness :
    (parseIntJS "1990" = some 1990 ∧ (0 : Int) < 1990 ∧
     parseIntJS "2000" = some 2000 ∧ (2000 : Int) < 99999 ∧
     docNoYear.first_publish_year = none) ∧
    (applyFilters false "any" "1990" "2000" [doc1995] = [doc1995] ∧
     applyFilters false "any" "1990" "" [doc1980] = [] ∧
     applyFilters false "any" "1990" "" [docNoYear] = [] ∧
     applyFilters false "any" "" "2000" [docNoYear] = []) :=
  ⟨⟨by decide, by decide, by decide, by decide, rfl⟩,
   year_filter_spec "1990" "2000" 1990 2000 docNoYear (by decide) (by decide)
     (by decide) (by decide) rfl⟩

/-- Soundness of the three facet lists with respect to the sorted merged
list, for any merged list. -/
theorem facet_sound_core (combined : List Doc) (sb : String) (v : String) :
    (v ∈ (facetScan (fun d => d.language) combined).take 20 →
      ∃ d, d ∈ sortDocs sb combined ∧ v ∈ d.language) ∧
    (v ∈ (facetScan (fun d => d.subject.take 10) combined).take 50 →
      ∃ d, d ∈ sortDocs sb combined ∧ v ∈ d.subject) ∧
    (v ∈ (facetScan (fun d => d.publisher.take 3) combined).take 30 →
      ∃ d, d ∈ sortDocs sb combined ∧ v ∈ d.publisher) := by
  refine ⟨?_, ?_, ?_⟩ <;> intro hv
  · obtain ⟨d, hd, hvl⟩ := mem_facetScan _ v combined (List.take_subset _ _ hv)
    exact ⟨d, (mem_sortDocs sb combined d).mpr hd, hvl⟩
  · obtain ⟨d, hd, hvl⟩ := mem_facetScan _ v combined (List.take_subset _ _ hv)
    exact ⟨d, (mem_sortDocs sb combined d).mpr hd, List.take_subset _ _ hvl⟩
  · obtain ⟨d, hd, hvl⟩ := mem_facetScan _ v combined (List.take_subset _ _ hv)
    exact ⟨d, (mem_sortDocs sb combined d).mpr hd, List.take_subset _ _ hvl⟩

/-- C8: after any completed successful fetch/merge, every value in the
derived facet lists (languages, subjects, publishers) occurs in the
corresponding field of at least one record of the published ResultSet: the
per-record sampling caps and the facet-list truncations only drop values,
never introduce ones absent from the results. -/
theorem facet_values_sound (s : AppState) (append : Bool) (docs : List Doc)
    (nf : Option Int) (v : String) :
    (v ∈ (exec s append (.ok docs nf)).availableLangs →
      ∃ d, d ∈ (exec s append (.ok docs nf)).results ∧ v ∈ d.language) ∧
    (v ∈ (exec s append (.ok docs nf)).availableSubjects →
      ∃ d, d ∈ (exec s append (.ok docs nf)).results ∧ v ∈ d.subject) ∧
    (v ∈ (exec s append (.ok docs nf)).availablePublishers →
      ∃ d, d ∈ (exec s append (.ok docs nf)).results ∧ v ∈ d.publisher) :=
  facet_sound_core
    (if append then
      s.results ++ applyFilters s.ebookOnly s.langFilter s.yearMin s.yearMax docs
     else applyFilters s.ebookOnly s.langFilter s.yearMin s.yearMax docs)
    s.sortBy v

theorem facet_values_sound_witness :
    ("eng" ∈ (exec initialState true (.ok [docA] none)).availableLangs) ∧
    (∃ d, d ∈ (exec initialState true (.ok [docA] none)).results ∧ "eng" ∈ d.language) :=
  ⟨by decide, (facet_values_sound initialState true [docA] none "eng").1 (by decide)⟩

/-- Record whose publish-year list has a duplicate and is not yet sorted
descending. -/
def docDupYears : Doc :=
  { emptyDoc with key := "/works/OL3W", publish_year := [1999, 2000, 2000] }

/-- C9 counterexample: publish years [1999, 2000, 2000] produce
[2000, 2000, 1999] — descending but with the duplicate retained, so the
projection does not deduplicate — and because JS `sort` works in place the
record's own publish_year list is reordered, so the input record is
mutated. -/
theorem details_publish_years_cex :
    ¬ (detailsPublishYears docDupYears).Nodup ∧
    (detailsRecordAfter docDupYears).publish_year ≠ docDupYears.publish_year := by
  exact ⟨by decide, by decide⟩

/-- C9 (amended): the detail projection produces the record's publish years
sorted descending — duplicates retained, not removed — and the sort is
performed in place, so after the projection the record's publish_year
field holds exactly that descending-sorted list (the record is mutated
whenever its list was not already in that order). -/
theorem details_publish_years_spec (d : Doc) :
    (detailsPublishYears d).Pairwise (fun a b => b ≤ a) ∧
    (detailsPublishYears d).Perm d.publish_year ∧
    (detailsRecordAfter d).publish_year = detailsPublishYears d := by
  refine ⟨?_, sortLe_perm _ _, rfl⟩
  have h := sortLe_pairwise (fun a b : Int => decide (b ≤ a))
    (fun a b => by
      rcases le_total b a with h | h
      · left; exact decide_eq_true h
      · right; exact decide_eq_true h)
    (fun a b c h1 h2 =>
      decide_eq_true (le_trans (of_decide_eq_true h2) (of_decide_eq_true h1)))
    d.publish_year
  exact h.imp (fun hx => of_decide_eq_true hx)

/-- C10: toggling the favorite status of a record twice returns the
favorites collection to its original state when records are identified by
key: a key is stored after the double toggle exactly when it was stored
before. -/
theorem toggleFav_twice_same_keys (favs : List Doc) (d : Doc) (k : String) :
    (∃ f, f ∈ toggleFav d (toggleFav d favs) ∧ f.key = k) ↔
    (∃ f, f ∈ favs ∧ f.key = k) := by
  by_cases h : isFav d favs = true
  · have h1 : toggleFav d favs = favs.filter (fun f => f.key != d.key) := by
      unfold toggleFav; rw [if_pos h]
    have h2 : isFav d (favs.filter (fun f => f.key != d.key)) = false := by
      unfold isFav
      rw [List.any_eq_false]
      intro f hf
      rw [List.mem_filter] at hf
      simpa [bne] using hf.2
    have h3 : toggleFav d (toggleFav d favs)
        = d :: favs.filter (fun f => f.key != d.key) := by
      rw [h1]; unfold toggleFav; rw [if_neg (by simp [h2])]
    rw [h3]
    constructor
    · rintro ⟨f, hf, rfl⟩
      rcases List.mem_cons.mp hf with rfl | hf2
      · unfold isFav at h
        rw [List.any_eq_true] at h
        obtain ⟨g, hg, hgk⟩ := h
        exact ⟨g, hg, by simpa using hgk⟩
      · rw [List.mem_filter] at hf2
        exact ⟨f, hf2.1, rfl⟩
    · rintro ⟨g, hg, rfl⟩
      by_cases hk : g.key = d.key
      · exact ⟨d, List.mem_cons_self _ _, hk.symm⟩
      · refine ⟨g, ?_, rfl⟩
        apply List.mem_cons_of_mem
        rw [List.mem_filter]
        exact ⟨hg, by simpa [bne] using hk⟩
  · have h0 : isFav d favs = false := by simpa using h
    have h1 : toggleFav d favs = d :: favs := by
      unfold toggleFav; rw [if_neg (by simp [h0])]
    have h2 : isFav d (d :: favs) = true := by simp [isFav]
    have h3 : toggleFav d (toggleFav d favs) = favs := by
      rw [h1]; unfold toggleFav; rw [if_pos h2]
      have hdd : (d.key != d.key) = false := bne_self_eq_false d.key
      rw [List.filter_cons]
      rw [hdd]
      simp only [Bool.false_eq_true, if_false]
      rw [List.filter_eq_self]
      unfold isFav at h0
      have h4 := List.any_eq_false.mp h0
      intro a ha
      have h5 := h4 a ha
      simpa [bne] using h5
    rw [h3]

end BookFinder
